import Mathlib

/-
  Verification of the stock-backtest application (src/streamlit_app.py)
  against its natural-language specification.

  The strategy `MyCombinedStrategy`, the data-normalization function
  `get_data`, the backtest driver `run_backtest` and the module-level
  button handler are embedded shallowly below.  Prices and volumes are
  modelled as exact rationals.  A bar history is a `List Bar` kept in
  backtrader's indexing order: the head of the list is the current bar
  (index 0), the tail is the past.  Runs process chronological bar lists
  and cons each new bar onto the history.

  Order fills are modelled as immediate and same-bar, following the
  specification's §3/§9 documented simplification of the source's order
  model; broker rejections (insufficient cash) are not modelled, as no
  claim depends on them and every concrete run below stays well inside
  the available cash.
-/

namespace StockBacktest

/-- One OHLCV bar.  Fields mirror the columns backtrader consumes
(`open` is a Lean keyword, hence the trailing underscore). -/
structure Bar where
  open_ : ℚ
  high : ℚ
  low : ℚ
  close : ℚ
  volume : ℚ
deriving DecidableEq, Inhabited

/-- The `params` tuple of `MyCombinedStrategy`. -/
structure Params where
  volume_limit_A : ℚ
  volume_limit_B : ℚ
  k_bar_pct : ℚ
  consolidation_pct : ℚ
  logic : String
  position_size : ℚ
deriving DecidableEq

/-- The strategy's declared parameter defaults with a caller-supplied
combination logic, as passed by `cerebro.addstrategy(MyCombinedStrategy,
logic=logic)` in `run_backtest`. -/
def paramsWithLogic (logic : String) : Params :=
  ⟨10000, 1000, 35 / 1000, 5 / 100, logic, 100⟩

/-- The strategy's declared parameter defaults
(`volume_limit_A = 10000`, `volume_limit_B = 1000`, `k_bar_pct = 0.035`,
`consolidation_pct = 0.05`, `logic = 'OR'`, `position_size = 100`). -/
def defaultParams : Params := paramsWithLogic ("OR")

/-- Close prices of a history (most recent first). -/
def closes (bars : List Bar) : List ℚ := bars.map Bar.close

/-- `btind.SimpleMovingAverage(period = n)` read at index 0: the
arithmetic mean of the trailing `n` closes (current bar included).  The
strategy only reads an SMA behind a history-length guard that makes it
defined, so the value on shorter histories is never observed. -/
def smaQ (n : ℕ) (bars : List Bar) : ℚ :=
  ((bars.take n).map Bar.close).sum / (n : ℚ)

/-- One step of the exponential moving average recurrence with period
`p`: `EMA(t) = price(t) * α + EMA(t-1) * (1 - α)`, `α = 2 / (p + 1)`. -/
def emaStep (p : ℕ) (e x : ℚ) : ℚ :=
  x * (2 / ((p : ℚ) + 1)) + e * (1 - 2 / ((p : ℚ) + 1))

/-- EMA of a chronological value list read at its last element, seeded
with the simple average of the first `p` values (backtrader's seeding
convention); `none` while fewer than `p` values exist. -/
def emaSeeded (p : ℕ) (xs : List ℚ) : Option ℚ :=
  if xs.length < p then none
  else some ((xs.drop p).foldl (emaStep p) ((xs.take p).sum / (p : ℚ)))

/-- MACD line (fast EMA 12 minus slow EMA 26) at the last element of a
chronological close list; `none` before the slow EMA is defined. -/
def macdLineLast (xs : List ℚ) : Option ℚ :=
  (emaSeeded 12 xs).bind (fun f => (emaSeeded 26 xs).map (fun s => f - s))

/-- The chronological series of defined MACD-line values. -/
def macdSeries (xs : List ℚ) : List ℚ :=
  (List.range xs.length).filterMap (fun i => macdLineLast (xs.take (i + 1)))

/-- MACD line minus signal line (EMA 9 of the MACD line) at the last
element of a chronological close list. -/
def macdDiffLast (xs : List ℚ) : Option ℚ :=
  (macdLineLast xs).bind (fun m =>
    (emaSeeded 9 (macdSeries xs)).map (fun s => m - s))

/-- Crossover sign from the previous difference `d1` to the current
difference `d0`: `+1` on an upward (golden) cross, `-1` on a downward
cross, `0` otherwise. -/
def crossSign (d1 d0 : ℚ) : Int :=
  if d1 ≤ 0 ∧ 0 < d0 then 1
  else if 0 ≤ d1 ∧ d0 < 0 then -1
  else 0

/-- `btind.CrossOver(macd.macd, macd.signal)` read at index 0 on a
most-recent-first history: defined once the difference exists on the
current and the previous bar. -/
def macdCross (bars : List Bar) : Option Int :=
  (macdDiffLast ((closes bars).reverse)).bind (fun d0 =>
    (macdDiffLast ((closes bars).reverse).dropLast).map (fun d1 =>
      crossSign d1 d0))

/-- `MyCombinedStrategy.check_strategy_1` (strong consolidation): at
least 60 bars, bullish stacking MA60 < MA20 < close, MA5/MA20 tie-up
within `consolidation_pct`, and volume above `volume_limit_A * 1000`. -/
def check_strategy_1 (p : Params) (bars : List Bar) : Bool :=
  if bars.length < 60 then false
  else
    let cur := bars.headI
    let cond1 := decide (smaQ 60 bars < smaQ 20 bars) &&
                 decide (smaQ 20 bars < cur.close)
    let max_ma := max (smaQ 5 bars) (smaQ 20 bars)
    let min_ma := min (smaQ 5 bars) (smaQ 20 bars)
    let cond2 := decide (max_ma / min_ma < 1 + p.consolidation_pct)
    let cond3 := decide (p.volume_limit_A * 1000 < cur.volume)
    cond1 && cond2 && cond3

/-- `MyCombinedStrategy.check_strategy_2` (long bullish breakout): at
least 20 bars, bullish stacking MA20 < MA10 < close, volume above
`volume_limit_B * 1000`, a long bullish candle, and `macd_cross[0] > 0`
(false while the crossover indicator is still undefined, matching the
NaN comparison semantics of the source). -/
def check_strategy_2 (p : Params) (bars : List Bar) : Bool :=
  if bars.length < 20 then false
  else
    let cur := bars.headI
    let cond1 := decide (smaQ 20 bars < smaQ 10 bars) &&
                 decide (smaQ 10 bars < cur.close)
    let cond2 := decide (p.volume_limit_B * 1000 < cur.volume)
    let cond3 := decide (cur.open_ < cur.close) &&
                 decide (p.k_bar_pct < (cur.close - cur.open_) / cur.open_)
    let cond4 := (macdCross bars).elim false (fun v => decide (0 < v))
    cond1 && cond2 && cond3 && cond4

/-- The combined entry signal of `MyCombinedStrategy.next`: with logic
`'AND'` both rule sets must fire, otherwise (the `'OR'` default) either
suffices. -/
def finalBuySignal (logic : String) (s1 s2 : Bool) : Bool :=
  if logic = "AND" then s1 && s2 else s1 || s2

/-- Direction of a submitted order. -/
inductive Side where
  | buy
  | sell
deriving DecidableEq

/-- A submitted order as stored in `self.order`. -/
structure Order where
  side : Side
  size : ℚ
deriving DecidableEq

/-- Strategy-plus-broker state threaded through the run: the stored
`self.order` (never reset by `notify_order` in the source), the broker
cash, the held position size, and counters of submitted buy and sell
orders. -/
structure StratState where
  order : Option Order
  cash : ℚ
  position : ℚ
  buys : ℕ
  sells : ℕ
deriving DecidableEq

/-- The state at the start of a run with the given broker cash. -/
def initState (cash : ℚ) : StratState := ⟨none, cash, 0, 0, 0⟩

/-- `cerebro.broker.setcommission(commission=0.001)`. -/
def commission_rate : ℚ := 1 / 1000

/-- `MyCombinedStrategy.next` for one bar, with same-bar fills: return
immediately while `self.order` is set; otherwise evaluate both rule
sets, combine them, and either buy `position_size` when flat and the
signal fires, or sell `position_size` when holding and the close drops
below MA20. -/
def strategyNext (p : Params) (bars : List Bar) (s : StratState) : StratState :=
  if s.order.isSome then s
  else
    let s1 := check_strategy_1 p bars
    let s2 := check_strategy_2 p bars
    let sig := finalBuySignal p.logic s1 s2
    let cur := bars.headI
    if s.position = 0 then
      if sig then
        let notional := cur.close * p.position_size
        ⟨some ⟨Side.buy, p.position_size⟩,
         s.cash - notional - commission_rate * notional,
         s.position + p.position_size, s.buys + 1, s.sells⟩
      else s
    else
      if cur.close < smaQ 20 bars then
        let notional := cur.close * p.position_size
        ⟨some ⟨Side.sell, p.position_size⟩,
         s.cash + notional - commission_rate * notional,
         s.position - p.position_size, s.buys, s.sells + 1⟩
      else s

/-- The bar loop: step the strategy over each chronological bar,
consing it onto the history, and record the broker value
(cash + position * close) after every bar; the equity list is kept most
recent first. -/
def runAux (p : Params) (past : List Bar) (s : StratState) (eqs : List ℚ) :
    List Bar → StratState × List ℚ
  | [] => (s, eqs)
  | b :: rest =>
      let bars := b :: past
      let s2 := strategyNext p bars s
      runAux p bars s2 ((s2.cash + s2.position * b.close) :: eqs) rest

/-- What `run_backtest` reports for the Sharpe ratio: either the
formatted number or the sentinel that reaches the caller when the
analyzer could not compute a ratio. -/
inductive SharpeReport where
  | undefinedSentinel
  | value (mean variance : ℚ)
deriving DecidableEq

/-- Period-over-period returns of an equity trajectory. -/
def periodReturns (eqCurve : List ℚ) : List ℚ :=
  List.zipWith (fun a b => b / a - 1) eqCurve eqCurve.tail

/-- Arithmetic mean of a list of rationals. -/
def listMean (l : List ℚ) : ℚ := l.sum / (l.length : ℚ)

/-- Sum of squared deviations from the mean. -/
def varSum (l : List ℚ) : ℚ :=
  (l.map (fun x => (x - listMean l) * (x - listMean l))).sum

/-- Modelled from the spec: the `bt.analyzers.SharpeRatio` analyzer is
backtrader framework code and not part of src/; per the specification it
must yield an undefined result (`None`, surfaced unformatted by
`run_backtest`) when the return trajectory is empty or has zero
variance, and otherwise a defined summary of the returns.  The √252
annualized ratio itself is irrational and not needed by any claim, so
the defined branch carries the mean and variance of the returns. -/
def sharpeAnalysis (eqCurve : List ℚ) : Option (ℚ × ℚ) :=
  let rets := periodReturns eqCurve
  if rets.isEmpty then none
  else if varSum rets = 0 then none
  else some (listMean rets, varSum rets / (rets.length : ℚ))

/-- The sharpe line of `run_backtest`: a `None` analyzer result is left
untouched (the sentinel reaches the metrics dict), a number is
formatted. -/
def reportSharpe : Option (ℚ × ℚ) → SharpeReport
  | none => SharpeReport.undefinedSentinel
  | some md => SharpeReport.value md.1 md.2

/-- The metrics dict assembled by `run_backtest`. -/
structure Metrics where
  finalValue : ℚ
  totalReturnPct : ℚ
  sharpe : SharpeReport
  buys : ℕ
  sells : ℕ
deriving DecidableEq

/-- `run_backtest(data, logic, initial_cash)`: run the strategy with the
declared parameter defaults and the supplied logic over the chronological
bar list, read the final broker value, and assemble the metrics. -/
def run_backtest (logic : String) (initial_cash : ℚ) (data : List Bar) : Metrics :=
  let p := paramsWithLogic logic
  let r := runAux p [] (initState initial_cash) [] data
  let fv := r.2.headD initial_cash
  ⟨fv, (fv - initial_cash) / initial_cash * 100,
   reportSharpe (sharpeAnalysis r.2.reverse), r.1.buys, r.1.sells⟩

/-- The OHLCV columns `get_data` requires and keeps. -/
def requiredCols : List String := ["open", "high", "low", "close", "volume"]

/-- A pandas DataFrame as far as `get_data` observes it: its column
labels and its rows (one bar per trading date). -/
structure DF where
  cols : List String
  rows : List Bar
deriving DecidableEq

/-- `pd.DataFrame()`: the empty frame returned on every failure path. -/
def DF.emptyDF : DF := ⟨[], []⟩

/-- `data.empty`: true when either axis has length zero. -/
def DF.isEmptyDF (d : DF) : Bool := d.rows.isEmpty || d.cols.isEmpty

/-- The column normalization of `get_data`: lowercase every label,
rename `adj close` to `close`, and apply the (dead after lowercasing)
`Volume` rename. -/
def normCols (cols : List String) : List String :=
  let cols1 := cols.map String.toLower
  let cols2 :=
    if cols1.contains ("adj close") then
      cols1.map (fun c => if c = "adj close" then "close" else c)
    else cols1
  if cols2.contains ("Volume") then
    cols2.map (fun c => if c = "Volume" then "volume" else c)
  else cols2

/-- `get_data` after the download: an empty download, or a download
missing a required column after normalization, yields the empty frame
(errors are shown in the UI, not returned); otherwise the frame is
restricted to the required columns. -/
def get_data (raw : DF) : DF :=
  if raw.isEmptyDF then DF.emptyDF
  else
    let cols3 := normCols raw.cols
    let missing := requiredCols.filter (fun c => ! cols3.contains c)
    if ! missing.isEmpty then DF.emptyDF
    else ⟨requiredCols, raw.rows⟩

/-- Outcome of pressing the run button. -/
inductive RunOutcome where
  | invalidDates
  | noData
  | ran (m : Metrics)
deriving DecidableEq

/-- True exactly on the outcome in which the simulation was executed. -/
def RunOutcome.isRan : RunOutcome → Bool
  | RunOutcome.ran _ => true
  | _ => false

/-- The module-level button handler: reject `start_date >= end_date`,
otherwise fetch, and run the backtest only when the returned frame is
non-empty. -/
def buttonHandler (startDate endDate : Int) (initial_cash : ℚ)
    (logic : String) (raw : DF) : RunOutcome :=
  if endDate ≤ startDate then RunOutcome.invalidDates
  else
    let data := get_data raw
    if data.isEmptyDF then RunOutcome.noData
    else RunOutcome.ran (run_backtest logic initial_cash data.rows)

/-- A bar of a flat price series: all four prices equal. -/
def flatBar (c v : ℚ) : Bar := ⟨c, c, c, c, v⟩

/-- Concrete 62-bar chronological series: 59 flat bars at 100, one
spike bar at 110 with surge volume that satisfies Rule Set 1, then two
bars closing at 50 and 40, far below MA20. -/
def c1Bars : List Bar :=
  List.replicate 59 (flatBar 100 1000) ++
    [⟨110, 110, 110, 110, 20000000⟩, ⟨100, 100, 40, 50, 1000⟩,
     ⟨50, 50, 30, 40, 1000⟩]

/-- 1 when an order is stored in the state, 0 otherwise. -/
def orderFlag (s : StratState) : ℕ := if s.order.isSome then 1 else 0

/-- A raw download with no rows and no columns (failed download). -/
def rawNoData : DF := ⟨[], []⟩

/-- A raw download whose normalized columns miss the required `close`. -/
def rawMissingCols : DF := ⟨["open", "high", "low", "volume"], [flatBar 100 1000]⟩

/-- A raw download with exactly the required columns but zero bars. -/
def rawZeroRows : DF := ⟨["open", "high", "low", "close", "volume"], []⟩

/-- A raw download with the required columns and one bar. -/
def rawGood : DF := ⟨["open", "high", "low", "close", "volume"], [flatBar 100 1000]⟩

/- ------------------------------------------------------------------ -/
/- Helper lemmas                                                      -/
/- ------------------------------------------------------------------ -/

/-- A set `self.order` makes `next` return immediately, leaving the
state untouched. -/
theorem strategyNext_of_isSome (p : Params) (bars : List Bar) (s : StratState)
    (h : s.order.isSome = true) : strategyNext p bars s = s := by
  unfold strategyNext
  rw [if_pos h]

/-- One bar either leaves the state unchanged or, starting from a state
with no stored order, submits exactly one order. -/
theorem strategyNext_cases (p : Params) (bars : List Bar) (s : StratState) :
    strategyNext p bars s = s
    ∨ ((strategyNext p bars s).order.isSome = true
        ∧ orderFlag s = 0
        ∧ (strategyNext p bars s).buys + (strategyNext p bars s).sells
            = s.buys + s.sells + 1) := by
  rcases ho : s.order with _ | o
  · have hflag : orderFlag s = 0 := by
      unfold orderFlag
      rw [ho]
      rfl
    simp only [strategyNext, ho, Option.isSome_none, Bool.false_eq_true,
      if_false]
    split_ifs with h1 h2 h3
    · right
      refine ⟨rfl, hflag, ?_⟩
      show s.buys + 1 + s.sells = s.buys + s.sells + 1
      omega
    · left
      rfl
    · right
      refine ⟨rfl, hflag, ?_⟩
      show s.buys + (s.sells + 1) = s.buys + s.sells + 1
      omega
    · left
      rfl
  · left
    exact strategyNext_of_isSome p bars s (by rw [ho]; rfl)

/-- The submission-count invariant `buys + sells = orderFlag` is
preserved by one bar step. -/
theorem strategyNext_count_inv (p : Params) (bars : List Bar) (s : StratState)
    (h : s.buys + s.sells = orderFlag s) :
    (strategyNext p bars s).buys + (strategyNext p bars s).sells
      = orderFlag (strategyNext p bars s) := by
  rcases strategyNext_cases p bars s with hc | ⟨hs, hflag, hn⟩
  · rw [hc]
    exact h
  · have h1 : orderFlag (strategyNext p bars s) = 1 := by
      unfold orderFlag
      rw [if_pos hs]
    omega

/-- The flag never exceeds one. -/
theorem orderFlag_le_one (s : StratState) : orderFlag s ≤ 1 := by
  unfold orderFlag
  split_ifs <;> omega

/-- The submission-count invariant is preserved by the whole bar loop. -/
theorem runAux_count_inv (p : Params) :
    ∀ (data past : List Bar) (s : StratState) (eqs : List ℚ),
      s.buys + s.sells = orderFlag s →
      (runAux p past s eqs data).1.buys + (runAux p past s eqs data).1.sells
        = orderFlag (runAux p past s eqs data).1 := by
  intro data
  induction data with
  | nil =>
      intro past s eqs h
      simpa [runAux] using h
  | cons b rest ih =>
      intro past s eqs h
      simp only [runAux]
      exact ih _ _ _ (strategyNext_count_inv p (b :: past) s h)

/- ------------------------------------------------------------------ -/
/- Claim theorems                                                     -/
/- ------------------------------------------------------------------ -/

/-- C5: the entry combinator is configurable between AND (both rule
sets must fire) and OR (either suffices), and the declared default
logic is OR. -/
theorem combinator_modes :
    (∀ s1 s2 : Bool, finalBuySignal ("AND") s1 s2 = (s1 && s2))
    ∧ (∀ s1 s2 : Bool, finalBuySignal ("OR") s1 s2 = (s1 || s2))
    ∧ defaultParams.logic = "OR" := by
  refine ⟨fun s1 s2 => ?_, fun s1 s2 => ?_, rfl⟩
  · unfold finalBuySignal
    rw [if_pos rfl]
  · unfold finalBuySignal
    rw [if_neg (by decide)]

/-- C2: over any run, at most one order is ever submitted in total,
because `notify_order` never resets `self.order`; and whenever an order
is stored, `next` is an identity on the state, so neither entry nor
exit signals have any further effect. -/
theorem single_order_per_run :
    (∀ (logic : String) (cash : ℚ) (data : List Bar),
        (runAux (paramsWithLogic logic) [] (initState cash) [] data).1.buys
          + (runAux (paramsWithLogic logic) [] (initState cash) [] data).1.sells
          ≤ 1)
    ∧ (∀ (p : Params) (bars : List Bar) (s : StratState),
        s.order.isSome = true → strategyNext p bars s = s) := by
  constructor
  · intro logic cash data
    have h := runAux_count_inv (paramsWithLogic logic) data [] (initState cash)
      [] (by rfl)
    have h2 := orderFlag_le_one
      (runAux (paramsWithLogic logic) [] (initState cash) [] data).1
    omega
  · exact strategyNext_of_isSome

/-- Witness for C2 at a concrete state holding a completed sell order:
`next` leaves it untouched. -/
theorem single_order_per_run_witness :
    strategyNext defaultParams [] ⟨some ⟨Side.sell, 100⟩, 0, 0, 0, 1⟩
      = ⟨some ⟨Side.sell, 100⟩, 0, 0, 0, 1⟩ :=
  single_order_per_run.2 defaultParams [] ⟨some ⟨Side.sell, 100⟩, 0, 0, 0, 1⟩ rfl

/-- C6: per bar the strategy submits at most one order, and it submits
nothing at all while an order is outstanding. -/
theorem one_order_outstanding :
    (∀ (p : Params) (bars : List Bar) (s : StratState),
        (strategyNext p bars s).buys + (strategyNext p bars s).sells
          ≤ s.buys + s.sells + 1)
    ∧ (∀ (p : Params) (bars : List Bar) (s : StratState),
        s.order.isSome = true →
        (strategyNext p bars s).buys + (strategyNext p bars s).sells
          = s.buys + s.sells) := by
  constructor
  · intro p bars s
    rcases strategyNext_cases p bars s with hc | ⟨_, _, hn⟩
    · rw [hc]
      omega
    · omega
  · intro p bars s h
    rw [strategyNext_of_isSome p bars s h]

/-- Witness for C6 at a concrete state holding a pending buy order: the
bar adds no submission. -/
theorem one_order_outstanding_witness :
    (strategyNext defaultParams [] ⟨some ⟨Side.buy, 100⟩, 88989, 100, 1, 0⟩).buys
      + (strategyNext defaultParams [] ⟨some ⟨Side.buy, 100⟩, 88989, 100, 1, 0⟩).sells
      = 1 + 0 :=
  one_order_outstanding.2 defaultParams [] ⟨some ⟨Side.buy, 100⟩, 88989, 100, 1, 0⟩ rfl

/-- The crossover indicator only ever yields nothing, `+1`, `-1` or
`0`. -/
theorem macdCross_range (bars : List Bar) :
    macdCross bars = none ∨ macdCross bars = some 1
      ∨ macdCross bars = some (-1) ∨ macdCross bars = some 0 := by
  unfold macdCross
  rcases h0 : macdDiffLast ((closes bars).reverse) with _ | d0
  · left
    rfl
  · rcases h1 : macdDiffLast ((closes bars).reverse).dropLast with _ | d1
    · left
      simp [h1]
    · right
      simp [h1, crossSign]
      split_ifs <;> simp_all

/-- The source's `macd_cross[0] > 0` test is the same as the crossover
indicator being defined and equal to `+1`. -/
theorem macdCross_pos_iff (bars : List Bar) :
    (macdCross bars).elim false (fun v => decide (0 < v))
      = decide (macdCross bars = some 1) := by
  rcases macdCross_range bars with h | h | h | h <;> rw [h] <;> simp

/-- C3: Rule Set 1 fires exactly when at least 60 bars exist, MA60 <
MA20 < close, MA5 and MA20 are within the consolidation tolerance
(default 0.05), and volume exceeds `volume_limit_A * 1000` (default
10,000,000); in particular it never fires on fewer than 60 bars. -/
theorem rule_set_1_characterization :
    (∀ (p : Params) (bars : List Bar),
        check_strategy_1 p bars =
          (decide (60 ≤ bars.length) &&
           ((decide (smaQ 60 bars < smaQ 20 bars) &&
             decide (smaQ 20 bars < bars.headI.close)) &&
            decide (max (smaQ 5 bars) (smaQ 20 bars)
                / min (smaQ 5 bars) (smaQ 20 bars) < 1 + p.consolidation_pct) &&
            decide (p.volume_limit_A * 1000 < bars.headI.volume))))
    ∧ defaultParams.consolidation_pct = 5 / 100
    ∧ defaultParams.volume_limit_A * 1000 = 10000000
    ∧ (∀ (p : Params) (bars : List Bar), bars.length < 60 →
        check_strategy_1 p bars = false) := by
  have key : ∀ (p : Params) (bars : List Bar),
      check_strategy_1 p bars =
        (decide (60 ≤ bars.length) &&
         ((decide (smaQ 60 bars < smaQ 20 bars) &&
           decide (smaQ 20 bars < bars.headI.close)) &&
          decide (max (smaQ 5 bars) (smaQ 20 bars)
              / min (smaQ 5 bars) (smaQ 20 bars) < 1 + p.consolidation_pct) &&
          decide (p.volume_limit_A * 1000 < bars.headI.volume))) := by
    intro p bars
    unfold check_strategy_1
    by_cases h : bars.length < 60
    · rw [if_pos h, decide_eq_false (by omega : ¬ 60 ≤ bars.length),
        Bool.false_and]
    · rw [if_neg h, decide_eq_true (by omega : 60 ≤ bars.length),
        Bool.true_and]
  refine ⟨key, rfl, by norm_num [defaultParams, paramsWithLogic],
    fun p bars h => ?_⟩
  rw [key p bars, decide_eq_false (by omega : ¬ 60 ≤ bars.length),
    Bool.false_and]

/-- Witness for C3: the empty bar sequence is shorter than 60 bars and
Rule Set 1 does not fire on it. -/
theorem rule_set_1_characterization_witness :
    check_strategy_1 defaultParams [] = false :=
  rule_set_1_characterization.2.2.2 defaultParams [] (by decide)

/-- C4: Rule Set 2 fires exactly when at least 20 bars exist, MA20 <
MA10 < close, volume exceeds `volume_limit_B * 1000` (default
1,000,000), the candle is long and bullish beyond `k_bar_pct` (default
0.035), and the MACD crossover indicator equals +1 on this very bar; in
particular it never fires on fewer than 20 bars. -/
theorem rule_set_2_characterization :
    (∀ (p : Params) (bars : List Bar),
        check_strategy_2 p bars =
          (decide (20 ≤ bars.length) &&
           ((decide (smaQ 20 bars < smaQ 10 bars) &&
             decide (smaQ 10 bars < bars.headI.close)) &&
            decide (p.volume_limit_B * 1000 < bars.headI.volume) &&
            (decide (bars.headI.open_ < bars.headI.close) &&
             decide (p.k_bar_pct
                < (bars.headI.close - bars.headI.open_) / bars.headI.open_)) &&
            decide (macdCross bars = some 1))))
    ∧ defaultParams.volume_limit_B * 1000 = 1000000
    ∧ defaultParams.k_bar_pct = 35 / 1000
    ∧ (∀ (p : Params) (bars : List Bar), bars.length < 20 →
        check_strategy_2 p bars = false) := by
  have key : ∀ (p : Params) (bars : List Bar),
      check_strategy_2 p bars =
        (decide (20 ≤ bars.length) &&
         ((decide (smaQ 20 bars < smaQ 10 bars) &&
           decide (smaQ 10 bars < bars.headI.close)) &&
          decide (p.volume_limit_B * 1000 < bars.headI.volume) &&
          (decide (bars.headI.open_ < bars.headI.close) &&
           decide (p.k_bar_pct
              < (bars.headI.close - bars.headI.open_) / bars.headI.open_)) &&
          decide (macdCross bars = some 1))) := by
    intro p bars
    unfold check_strategy_2
    by_cases h : bars.length < 20
    · rw [if_pos h, decide_eq_false (by omega : ¬ 20 ≤ bars.length),
        Bool.false_and]
    · rw [if_neg h, decide_eq_true (by omega : 20 ≤ bars.length),
        Bool.true_and, ← macdCross_pos_iff bars]
  refine ⟨key, by norm_num [defaultParams, paramsWithLogic], rfl,
    fun p bars h => ?_⟩
  rw [key p bars, decide_eq_false (by omega : ¬ 20 ≤ bars.length),
    Bool.false_and]

/-- Witness for C4: the empty bar sequence is shorter than 20 bars and
Rule Set 2 does not fire on it. -/
theorem rule_set_2_characterization_witness :
    check_strategy_2 defaultParams [] = false :=
  rule_set_2_characterization.2.2.2 defaultParams [] (by decide)

/-- C7: the reported total return of a run equals
`(final_equity - initial_cash) / initial_cash`, expressed in percent;
equivalently, the final equity is recovered from it. -/
theorem total_return_formula :
    (∀ (logic : String) (cash : ℚ) (data : List Bar),
        (run_backtest logic cash data).totalReturnPct
          = ((run_backtest logic cash data).finalValue - cash) / cash * 100)
    ∧ (∀ (logic : String) (cash : ℚ) (data : List Bar), cash ≠ 0 →
        (run_backtest logic cash data).finalValue
          = cash * (1 + (run_backtest logic cash data).totalReturnPct / 100)) := by
  constructor
  · intro logic cash data
    rfl
  · intro logic cash data hc
    have h1 : (run_backtest logic cash data).totalReturnPct
        = ((run_backtest logic cash data).finalValue - cash) / cash * 100 := rfl
    rw [h1]
    generalize (run_backtest logic cash data).finalValue = fv
    field_simp
    ring

/-- Witness for C7 at initial cash 100000 on the empty data set. -/
theorem total_return_formula_witness :
    (run_backtest ("OR") 100000 []).finalValue
      = 100000 * (1 + (run_backtest ("OR") 100000 []).totalReturnPct / 100) :=
  total_return_formula.2 ("OR") 100000 [] (by norm_num)

/-- The SMA of a flat history is the flat price. -/
theorem smaQ_replicate (n k : ℕ) (c v : ℚ) (hn : n ≠ 0) (hk : n ≤ k) :
    smaQ n (List.replicate k (flatBar c v)) = c := by
  unfold smaQ
  rw [List.take_replicate, min_eq_left hk, List.map_replicate,
    List.sum_replicate, nsmul_eq_mul]
  exact mul_div_cancel_left₀ _ (by exact_mod_cast hn)

/-- Rule Set 1 never fires on a flat price series: the bullish
stacking MA60 < MA20 is an equality there. -/
theorem check_strategy_1_flat (p : Params) (k : ℕ) (c v : ℚ) :
    check_strategy_1 p (List.replicate k (flatBar c v)) = false := by
  unfold check_strategy_1
  by_cases h : (List.replicate k (flatBar c v)).length < 60
  · rw [if_pos h]
  · rw [if_neg h]
    have hk : 60 ≤ k := by
      rw [List.length_replicate] at h
      omega
    rw [smaQ_replicate 60 k c v (by norm_num) hk,
      smaQ_replicate 20 k c v (by norm_num) (by omega)]
    simp

/-- Rule Set 2 never fires on a flat price series: the bullish
stacking MA20 < MA10 is an equality there. -/
theorem check_strategy_2_flat (p : Params) (k : ℕ) (c v : ℚ) :
    check_strategy_2 p (List.replicate k (flatBar c v)) = false := by
  unfold check_strategy_2
  by_cases h : (List.replicate k (flatBar c v)).length < 20
  · rw [if_pos h]
  · rw [if_neg h]
    have hk : 20 ≤ k := by
      rw [List.length_replicate] at h
      omega
    rw [smaQ_replicate 20 k c v (by norm_num) hk,
      smaQ_replicate 10 k c v (by norm_num) (by omega)]
    simp

/-- Two false rule-set signals combine to false under every logic. -/
theorem finalBuySignal_false (logic : String) :
    finalBuySignal logic false false = false := by
  unfold finalBuySignal
  split_ifs <;> rfl

/-- On a flat history the initial state is a fixed point of `next`. -/
theorem strategyNext_flat (p : Params) (k : ℕ) (c v cash : ℚ) :
    strategyNext p (List.replicate k (flatBar c v)) (initState cash)
      = initState cash := by
  unfold strategyNext initState
  simp [check_strategy_1_flat, check_strategy_2_flat, finalBuySignal_false]

/-- The whole run over a flat series keeps the initial state and
produces a constant equity curve. -/
theorem runAux_flat (p : Params) (c v cash : ℚ) :
    ∀ (n k : ℕ),
      runAux p (List.replicate k (flatBar c v)) (initState cash)
        (List.replicate k cash) (List.replicate n (flatBar c v))
      = (initState cash, List.replicate (n + k) cash) := by
  intro n
  induction n with
  | zero =>
      intro k
      simp [runAux]
  | succ m ih =>
      intro k
      rw [List.replicate_succ]
      simp only [runAux]
      rw [← List.replicate_succ, strategyNext_flat p (k + 1) c v cash]
      have heq : (initState cash).cash
          + (initState cash).position * (flatBar c v).close = cash := by
        simp [initState, flatBar]
      rw [heq, ← List.replicate_succ, ih (k + 1),
        show m + (k + 1) = m + 1 + k from by omega]

/-- zipWith over two constant lists is a constant list. -/
theorem zipWith_replicate_min (f : ℚ → ℚ → ℚ) (a b : ℚ) :
    ∀ (n m : ℕ), List.zipWith f (List.replicate n a) (List.replicate m b)
      = List.replicate (min n m) (f a b) := by
  intro n
  induction n with
  | zero =>
      intro m
      simp
  | succ i ih =>
      intro m
      cases m with
      | zero => simp
      | succ j =>
          have hmin : (i + 1) ⊓ (j + 1) = (i ⊓ j) + 1 := by omega
          rw [List.replicate_succ, List.replicate_succ b j,
            List.zipWith_cons_cons, ih j, hmin, List.replicate_succ]

/-- The period returns of a constant equity curve are constant. -/
theorem periodReturns_replicate (n : ℕ) (a : ℚ) :
    periodReturns (List.replicate n a) = List.replicate (n - 1) (a / a - 1) := by
  unfold periodReturns
  cases n with
  | zero => simp
  | succ m =>
      rw [List.replicate_succ, List.tail_cons, ← List.replicate_succ,
        zipWith_replicate_min (fun x y => y / x - 1) a a (m + 1) m,
        Nat.succ_sub_one, min_eq_right (Nat.le_succ m)]

/-- The squared-deviation sum of a constant list vanishes. -/
theorem varSum_replicate (m : ℕ) (x : ℚ) :
    varSum (List.replicate m x) = 0 := by
  cases m with
  | zero => rfl
  | succ k =>
      unfold varSum
      have hmean : listMean (List.replicate (k + 1) x) = x := by
        unfold listMean
        rw [List.sum_replicate, List.length_replicate, nsmul_eq_mul]
        exact mul_div_cancel_left₀ _ (by exact_mod_cast Nat.succ_ne_zero k)
      rw [hmean, List.map_replicate]
      simp

/-- The modelled Sharpe analyzer is undefined on every constant equity
curve. -/
theorem sharpeAnalysis_replicate (n : ℕ) (a : ℚ) :
    sharpeAnalysis (List.replicate n a) = none := by
  simp only [sharpeAnalysis]
  rw [periodReturns_replicate]
  cases h : n - 1 with
  | zero => simp
  | succ k =>
      rw [if_neg (by rw [List.replicate_succ]; exact fun hc => by simp at hc),
        if_pos (varSum_replicate _ _)]

/-- C8: a Sharpe ratio the analyzer cannot compute (zero-variance
return trajectory) reaches the caller as the undefined sentinel, never
as a silently formatted number; in particular every flat price series
produces zero trades and an undefined Sharpe. -/
theorem sharpe_undefined_sentinel :
    (∀ eqCurve : List ℚ, varSum (periodReturns eqCurve) = 0 →
        reportSharpe (sharpeAnalysis eqCurve) = SharpeReport.undefinedSentinel)
    ∧ (∀ (n : ℕ) (c v cash : ℚ) (logic : String),
        (run_backtest logic cash (List.replicate n (flatBar c v))).buys = 0
        ∧ (run_backtest logic cash (List.replicate n (flatBar c v))).sells = 0
        ∧ (run_backtest logic cash (List.replicate n (flatBar c v))).sharpe
            = SharpeReport.undefinedSentinel) := by
  constructor
  · intro eqCurve h
    simp only [sharpeAnalysis]
    by_cases he : (periodReturns eqCurve).isEmpty = true
    · rw [if_pos he]
      rfl
    · rw [if_neg he, if_pos h]
      rfl
  · intro n c v cash logic
    have hrun := runAux_flat (paramsWithLogic logic) c v cash n 0
    simp only [List.replicate_zero, Nat.add_zero] at hrun
    simp only [run_backtest]
    rw [hrun]
    refine ⟨rfl, rfl, ?_⟩
    simp [List.reverse_replicate, sharpeAnalysis_replicate, reportSharpe]

/-- Witness for C8 on a concrete flat two-point equity curve. -/
theorem sharpe_undefined_sentinel_witness :
    reportSharpe (sharpeAnalysis [100000, 100000])
      = SharpeReport.undefinedSentinel :=
  sharpe_undefined_sentinel.1 [100000, 100000] (by with_unfolding_all decide)

set_option maxRecDepth 100000 in
/-- C1 evaluation at the failing input: over `c1Bars` the run submits
one buy order (bar 60, via Rule Set 1) and holds 100 shares; bar 61
closes at 50, far below its MA20 of 98; yet no sell order is ever
submitted, because the stored `self.order` makes every later `next`
call return immediately. -/
theorem missing_exit_order_eval :
    (runAux defaultParams [] (initState 100000) [] c1Bars).1.buys = 1
    ∧ (runAux defaultParams [] (initState 100000) [] c1Bars).1.sells = 0
    ∧ (runAux defaultParams [] (initState 100000) [] c1Bars).1.position = 100
    ∧ (runAux defaultParams [] (initState 100000) [] c1Bars).1.order.isSome = true
    ∧ (c1Bars.take 61).reverse.headI.close < smaQ 20 ((c1Bars.take 61).reverse) := by
  with_unfolding_all decide

/-- C9 counterexample: on concrete failing inputs — an empty download,
a download missing the required `close` column, and a structurally
valid download with zero bars — `get_data` returns the one plain empty
DataFrame, not a distinct DataUnavailable condition, so a caller cannot
distinguish the failure modes from a zero-bar success. -/
theorem data_unavailable_counterexample :
    get_data rawNoData = DF.emptyDF
    ∧ get_data rawMissingCols = DF.emptyDF
    ∧ get_data rawZeroRows = DF.emptyDF
    ∧ DF.emptyDF.isEmptyDF = true := by
  with_unfolding_all decide

/-- C9 amended: every failure mode of the fetch returns the plain empty
frame, and the button handler aborts before any simulation exactly when
the fetched frame is empty. -/
theorem data_unavailable_amended :
    (∀ raw : DF, raw.isEmptyDF = true → get_data raw = DF.emptyDF)
    ∧ (∀ raw : DF,
        (requiredCols.filter (fun c => ! (normCols raw.cols).contains c)).isEmpty
          = false → get_data raw = DF.emptyDF)
    ∧ (∀ (s e : Int) (cash : ℚ) (logic : String) (raw : DF),
        s < e → (get_data raw).isEmptyDF = true →
        buttonHandler s e cash logic raw = RunOutcome.noData) := by
  refine ⟨fun raw h => ?_, fun raw h => ?_,
    fun s e cash logic raw hlt hdf => ?_⟩
  · simp only [get_data]
    rw [if_pos h]
  · simp only [get_data]
    by_cases h1 : raw.isEmptyDF = true
    · rw [if_pos h1]
    · rw [if_neg h1, if_pos (by rw [h]; rfl)]
  · simp only [buttonHandler]
    rw [if_neg (not_le.mpr hlt), if_pos hdf]

/-- Witness for C9 on the zero-bar download with valid columns. -/
theorem data_unavailable_amended_witness :
    buttonHandler 0 1 100000 ("OR") rawZeroRows = RunOutcome.noData :=
  data_unavailable_amended.2.2 0 1 100000 ("OR") rawZeroRows
    (by norm_num) (by with_unfolding_all decide)

/-- C10 counterexample: with valid dates, one bar of data and a
negative initial cash of -50000, the handler runs the simulation
instead of surfacing an invalid-parameter error. -/
theorem invalid_params_counterexample :
    (buttonHandler 0 1 (-50000) ("OR") rawGood).isRan = true := by
  with_unfolding_all decide

/-- C10 amended: only the date order is validated — start ≥ end is
rejected before fetch and run — while a non-positive initial cash is
not validated and the simulation runs regardless. -/
theorem invalid_params_amended :
    (∀ (s e : Int) (cash : ℚ) (logic : String) (raw : DF), e ≤ s →
        buttonHandler s e cash logic raw = RunOutcome.invalidDates)
    ∧ (∀ (s e : Int) (cash : ℚ) (logic : String) (raw : DF),
        s < e → (get_data raw).isEmptyDF = false → cash ≤ 0 →
        (buttonHandler s e cash logic raw).isRan = true) := by
  constructor
  · intro s e cash logic raw h
    simp only [buttonHandler]
    rw [if_pos h]
  · intro s e cash logic raw hlt hne hcash
    simp only [buttonHandler]
    rw [if_neg (not_le.mpr hlt),
      if_neg (by rw [hne]; exact Bool.false_ne_true)]
    rfl

/-- Witness for C10: a reversed date range is rejected, and a run with
negative cash on good one-bar data reaches the simulation. -/
theorem invalid_params_amended_witness :
    buttonHandler 5 2 100000 ("OR") rawGood = RunOutcome.invalidDates
    ∧ (buttonHandler 0 1 (-1) ("AND") rawGood).isRan = true :=
  ⟨invalid_params_amended.1 5 2 100000 ("OR") rawGood (by norm_num),
   invalid_params_amended.2 0 1 (-1) ("AND") rawGood (by norm_num)
     (by with_unfolding_all decide) (by norm_num)⟩

end StockBacktest
